import Mathlib

/-!
Verification of the `popularity_and_return` data reshaping pipeline.

This file shallowly embeds the core transformations of the repository:

* `mention_to_csv.py` — `create_filing_summary_df`, `create_mentions_df`,
  and the merge/groupby of `process_and_save_data`;
* `analyze_mention.py` — `read_data`;
* `process_stock_return.py` — `calculate_annual_returns`.

Modelling conventions:

* JSON stores (Python dicts) are association lists in iteration order.
* pandas DataFrames are lists of records; where the set of columns matters
  (merging can raise `KeyError` on an empty frame, which has no columns),
  the columns are carried explicitly.
* Python exceptions (ValueError from `int(...)`, `pd.to_datetime` parse
  errors, AttributeError/TypeError from iterating a non-dict) are modelled
  with `Except String`.
* Prices and returns are rationals (the floats involved in the claims are
  exact small decimals); mention counts are integers; calendar dates are
  naturals encoded as `yyyymmdd`, so that numeric order is chronological
  order and the calendar year is division by 10000.
* pandas `groupby` uses its default `dropna=True`: rows whose group key is
  missing (NaT `filed_date`) are dropped.  pandas additionally sorts group
  keys; no claim depends on row order of grouped output, so groups are kept
  in first-appearance order here.
-/

namespace Edgar

deriving instance DecidableEq for Except

/-- A JSON value as found in `company_mentions.json`: either an integer
count, a string, or an object.  (Arrays and nulls do not occur in the
stored mention values.) -/
inductive JVal where
  | jint (n : Int)
  | jstr (s : String)
  | jobj (fields : List (String × JVal))

/-- Python `dict` key lookup over an association list (first binding wins,
as in a dict, whose keys are unique). -/
def jGet (fields : List (String × JVal)) (k : String) : Option JVal :=
  (fields.find? (fun p => p.1 = k)).map (·.2)

/-- The schema-normalization branch of `create_mentions_df`
(mention_to_csv.py lines 65-76): if the stored value is a dict containing
the key `competitor_mentions`, use that sub-value; otherwise treat the
whole value as the mention-count mapping. -/
def normalizeMentions : JVal → JVal
  | .jobj fs =>
    match jGet fs "competitor_mentions" with
    | some v => v
    | none => .jobj fs
  | v => v

/-- The `dates` sub-object of a filing metadata record; only `filed_date`
is consumed by the core (`filing_info.get('dates', {}).get('filed_date')`).
A present-but-null field is `none`. -/
structure FilingDates where
  filed_date : Option String
deriving DecidableEq

/-- One value of `filing_dates.json`'s inner mapping.  Only the `dates`
sub-object is consumed by `create_filing_summary_df`; the other fields
(accession number, company info, ...) are irrelevant to every claim. -/
structure FilingInfo where
  dates : Option FilingDates
deriving DecidableEq

/-- `filing_info.get('dates', {}).get('filed_date')`. -/
def getFiledDate (info : FilingInfo) : Option String :=
  (info.dates.getD ⟨none⟩).filed_date

/-- `filing_dates.json`: ticker → year-string → record. -/
abbrev FilingStore := List (String × List (String × FilingInfo))

/-- `company_mentions.json`: ticker → year-string → raw JSON value. -/
abbrev MentionStore := List (String × List (String × JVal))

/-- A row of `df_filings` before the `pd.to_datetime` column conversion:
`filed_date` is still the raw optional string. -/
structure RawFilingRow where
  ticker : String
  year : Int
  filed_date : Option String
deriving DecidableEq

/-- A row of `df_filings` after date conversion; dates are `yyyymmdd`
naturals, `none` is NaT. -/
structure FilingRow where
  ticker : String
  year : Int
  filed_date : Option Nat
deriving DecidableEq

/-- A pandas DataFrame of filing rows together with its columns
(`pd.DataFrame([])` has no columns at all, which matters downstream). -/
structure FilingDF where
  columns : List String
  rows : List FilingRow
deriving DecidableEq

/-- Digit-string accumulator. -/
def natOfDigitsAux (acc : Nat) : List Char → Nat
  | [] => acc
  | c :: t => natOfDigitsAux (acc * 10 + (c.toNat - 48)) t

/-- Split a character list at every `'-'` (the behavior of
`str.split('-')` for this single-character separator). -/
def splitDash : List Char → List (List Char)
  | [] => [[]]
  | c :: t =>
    let r := splitDash t
    if c = '-' then [] :: r
    else
      match r with
      | h :: rest => (c :: h) :: rest
      | [] => [[c]]

/-- Parse a nonempty all-digit character list. -/
def parseNatDigits (cs : List Char) : Option Nat :=
  if cs ≠ [] ∧ cs.all (·.isDigit) then some (natOfDigitsAux 0 cs) else none

/-- Model of Python `int(...)` on a year-string key: an optional sign
followed by digits; anything else raises ValueError.  (Python also strips
surrounding whitespace; the stored keys never carry any.) -/
def pyInt (s : String) : Option Int :=
  match s.toList with
  | '-' :: cs => (parseNatDigits cs).map fun n => -(n : Int)
  | cs => (parseNatDigits cs).map fun n => (n : Int)

/-- Model of `pd.to_datetime` applied to one date string.  The store's
date strings are ISO `YYYY-MM-DD` (see extract_filing_dates.py, which
formats them exactly so); a string not of that shape fails to parse, and
`pd.to_datetime`'s default `errors='raise'` turns that failure into an
exception.  The result is the `yyyymmdd` encoding. -/
def parseDate (s : String) : Option Nat :=
  match (splitDash s.toList).map parseNatDigits with
  | [some y, some m, some d] =>
    if 1 ≤ m ∧ m ≤ 12 ∧ 1 ≤ d ∧ d ≤ 31 then some (y * 10000 + m * 100 + d)
    else none
  | _ => none

/-- The row-building loop of `create_filing_summary_df` for one ticker:
one row per year key, `year` cast with `int(year)` (ValueError on a
non-numeric key). -/
def rawRowsOfTicker (t : String) : List (String × FilingInfo) → Except String (List RawFilingRow)
  | [] => .ok []
  | (y, info) :: rest =>
    match pyInt y with
    | some yi =>
      match rawRowsOfTicker t rest with
      | .ok rs => .ok (⟨t, yi, getFiledDate info⟩ :: rs)
      | .error e => .error e
    | none => .error "ValueError: invalid literal for int"

/-- The full row-building loop of `create_filing_summary_df` over the
outer ticker mapping. -/
def rawFilingRows : FilingStore → Except String (List RawFilingRow)
  | [] => .ok []
  | (t, ys) :: rest =>
    match rawRowsOfTicker t ys with
    | .ok r1 =>
      match rawFilingRows rest with
      | .ok r2 => .ok (r1 ++ r2)
      | .error e => .error e
    | .error e => .error e

/-- `df['filed_date'] = pd.to_datetime(df['filed_date'])`: absent values
(None) become NaT; a present string that fails to parse raises. -/
def toDatetimeCol : List RawFilingRow → Except String (List FilingRow)
  | [] => .ok []
  | r :: rest =>
    match r.filed_date with
    | none =>
      match toDatetimeCol rest with
      | .ok rs => .ok (⟨r.ticker, r.year, none⟩ :: rs)
      | .error e => .error e
    | some s =>
      match parseDate s with
      | some d =>
        match toDatetimeCol rest with
        | .ok rs => .ok (⟨r.ticker, r.year, some d⟩ :: rs)
        | .error e => .error e
      | none => .error "DateParseError: could not parse filed_date"

/-- `create_filing_summary_df` (mention_to_csv.py lines 33-52): flatten
the store into rows, then convert the date column when the frame is
nonempty.  `pd.DataFrame(rows)` on an empty row list yields a frame with
no columns. -/
def create_filing_summary_df (dates_data : FilingStore) : Except String FilingDF :=
  match rawFilingRows dates_data with
  | .error e => .error e
  | .ok raws =>
    if raws.isEmpty then .ok ⟨[], []⟩
    else
      match toDatetimeCol raws with
      | .error e => .error e
      | .ok rows => .ok ⟨["ticker", "year", "filed_date"], rows⟩

/-- A row of `df_mentions`. -/
structure MentionRow where
  ticker : String
  year : Int
  mentioned_company : String
  num_mention : Int
deriving DecidableEq

/-- A pandas DataFrame of mention rows with its columns. -/
structure MentionDF where
  columns : List String
  rows : List MentionRow
deriving DecidableEq

/-- The inner loop of `create_mentions_df`: iterate
`competitor_mentions.items()`, keep entries with `count > 0`, casting
`int(year)` per emitted row.  Comparing a non-integer count with `0`
raises TypeError (the stored counts are JSON integers when well-formed). -/
def processEntries (t : String) (y : String) : List (String × JVal) → Except String (List MentionRow)
  | [] => .ok []
  | (mt, c) :: rest =>
    match c with
    | .jint n =>
      if 0 < n then
        match pyInt y with
        | some yi =>
          match processEntries t y rest with
          | .ok rs => .ok (⟨t, yi, mt, n⟩ :: rs)
          | .error e => .error e
        | none => .error "ValueError: invalid literal for int"
      else processEntries t y rest
    | _ => .error "TypeError: comparison not supported"

/-- Processing of one (ticker, year, raw value): normalize the schema,
then iterate `.items()` — which raises AttributeError when the normalized
value is not a dict. -/
def processMentionValue (t : String) (y : String) (v : JVal) : Except String (List MentionRow) :=
  match normalizeMentions v with
  | .jobj fs => processEntries t y fs
  | _ => .error "AttributeError: object has no attribute items"

/-- `create_mentions_df`'s loop over the years of one filing ticker. -/
def mentionsRowsForYears (t : String) : List (String × JVal) → Except String (List MentionRow)
  | [] => .ok []
  | (y, v) :: rest =>
    match processMentionValue t y v with
    | .ok r1 =>
      match mentionsRowsForYears t rest with
      | .ok r2 => .ok (r1 ++ r2)
      | .error e => .error e
    | .error e => .error e

/-- `create_mentions_df`'s loop over the outer ticker mapping. -/
def mentionRowsAll : MentionStore → Except String (List MentionRow)
  | [] => .ok []
  | (t, ys) :: rest =>
    match mentionsRowsForYears t ys with
    | .ok r1 =>
      match mentionRowsAll rest with
      | .ok r2 => .ok (r1 ++ r2)
      | .error e => .error e
    | .error e => .error e

/-- Columns of `pd.DataFrame(rows)` for the mention rows. -/
def mentionDFColumns (rows : List MentionRow) : List String :=
  if rows.isEmpty then [] else ["ticker", "year", "mentioned_company", "num_mention"]

/-- `create_mentions_df` (mention_to_csv.py lines 55-85).  The
`dates_data` argument is accepted and unused, as in the source. -/
def create_mentions_df (mentions_data : MentionStore) (dates_data : FilingStore) :
    Except String MentionDF :=
  match mentionRowsAll mentions_data with
  | .ok rows =>
    let _ := dates_data
    .ok ⟨mentionDFColumns rows, rows⟩
  | .error e => .error e

/-- Whether a raw entry is a strictly positive integer count. -/
def posIntP (p : String × JVal) : Bool :=
  match p.2 with
  | .jint n => decide (0 < n)
  | _ => false

/-- Number of strictly positive mention entries in one stored value,
after schema normalization. -/
def posEntryCount (v : JVal) : Nat :=
  match normalizeMentions v with
  | .jobj fs => (fs.filter posIntP).length
  | _ => 0

/-- Total number of strictly positive mention entries across the whole
store. -/
def posCount (md : MentionStore) : Nat :=
  (md.map fun p => ((p.2.map fun q => posEntryCount q.2).sum)).sum

/-- A row of `df_filing_mentions`: the right-join of `df_filings` onto
`df_mentions` on `(ticker, year)`.  `filed_date` is NaT (`none`) when no
filing row matched. -/
structure JoinedRow where
  ticker : String
  year : Int
  filed_date : Option Nat
  mentioned_company : String
  num_mention : Int
deriving DecidableEq

/-- `pd.merge(df_filings, df_mentions, on=['ticker','year'], how='right')`
row semantics: right-frame row order is preserved; each right row is
repeated once per matching left row (in left order), or kept once with
NaT `filed_date` when no left row matches. -/
def mergeRight (left : List FilingRow) (right : List MentionRow) : List JoinedRow :=
  right.flatMap fun m =>
    let ms := left.filter fun f => f.ticker = m.ticker ∧ f.year = m.year
    if ms.isEmpty then [⟨m.ticker, m.year, none, m.mentioned_company, m.num_mention⟩]
    else ms.map fun f => ⟨m.ticker, m.year, f.filed_date, m.mentioned_company, m.num_mention⟩

/-- The group key of the aggregation
`groupby(['mentioned_company', 'filed_date', 'year'])`, or `none` when the
row's `filed_date` is NaT — pandas groupby's default `dropna=True` drops
such rows from every group. -/
def keyOf (r : JoinedRow) : Option (String × Nat × Int) :=
  r.filed_date.map fun d => (r.mentioned_company, d, r.year)

/-- The distinct group keys present in the joined table (NaT rows
contribute none). -/
def joinKeys (rows : List JoinedRow) : List (String × Nat × Int) :=
  (rows.filterMap keyOf).dedup

/-- `num_mention=('num_mention', 'sum')` over one group. -/
def groupSum (rows : List JoinedRow) (k : String × Nat × Int) : Int :=
  ((rows.filter fun r => keyOf r = some k).map (·.num_mention)).sum

/-- A row of `df_mentions_agg`. -/
structure AggRow where
  mentioned_company : String
  filed_date : Nat
  year : Int
  num_mention : Int
deriving DecidableEq

/-- `df_filing_mentions.groupby(['mentioned_company','filed_date','year'])
.agg(num_mention=('num_mention','sum')).reset_index()`.  Groups appear in
first-occurrence order (pandas sorts them; no claim concerns row order). -/
def groupbyAgg (rows : List JoinedRow) : List AggRow :=
  (joinKeys rows).map fun k => ⟨k.1, k.2.1, k.2.2, groupSum rows k⟩

/-- Total aggregated `num_mention` attributed to one
`(mentioned_company, year)` in `df_mentions_agg` (summing over its
`filed_date` groups). -/
def aggSum (agg : List AggRow) (mc : String) (y : Int) : Int :=
  ((agg.filter fun a => a.mentioned_company = mc ∧ a.year = y).map (·.num_mention)).sum

/-- Sum of `num_mention` over all pre-aggregation joined rows with a given
`(mentioned_company, year)`. -/
def joinedSumAll (rows : List JoinedRow) (mc : String) (y : Int) : Int :=
  ((rows.filter fun r => r.mentioned_company = mc ∧ r.year = y).map (·.num_mention)).sum

/-- Sum of `num_mention` over the pre-aggregation joined rows with a given
`(mentioned_company, year)` whose `filed_date` is not NaT. -/
def joinedSumDated (rows : List JoinedRow) (mc : String) (y : Int) : Int :=
  ((rows.filter fun r => r.mentioned_company = mc ∧ r.year = y ∧ r.filed_date.isSome).map
    (·.num_mention)).sum

/-- The merge step of `process_and_save_data`: `pd.merge` raises
`KeyError` when a join column is missing from either frame (which happens
exactly when that frame was built from an empty row list). -/
def process_filing_mentions (dfF : FilingDF) (dfM : MentionDF) : Except String (List JoinedRow) :=
  if "ticker" ∈ dfF.columns ∧ "year" ∈ dfF.columns ∧ "ticker" ∈ dfM.columns ∧
      "year" ∈ dfM.columns then
    .ok (mergeRight dfF.rows dfM.rows)
  else .error "KeyError: merge key not found"

/-- `process_and_save_data` (mention_to_csv.py lines 88-111), up to the
two produced tables `df_filing_mentions` and `df_mentions_agg` (the CSV
writes are I/O outside the data model). -/
def process_and_save_data (dates_data : FilingStore) (mentions_data : MentionStore) :
    Except String (List JoinedRow × List AggRow) :=
  match create_filing_summary_df dates_data with
  | .error e => .error e
  | .ok dfF =>
    match create_mentions_df mentions_data dates_data with
    | .error e => .error e
    | .ok dfM =>
      match process_filing_mentions dfF dfM with
      | .error e => .error e
      | .ok joined => .ok (joined, groupbyAgg joined)

/-- A row of `annual_stock_return.csv` as consumed by `read_data` (the
further columns start/end date and price are carried through the merge
untouched and dropped by the final column selection). -/
structure CsvReturnRow where
  ticker : String
  year : Int
  annual_return_pct : ℚ
deriving DecidableEq

/-- A row of `df_mentions_agg.csv` as consumed by `read_data`. -/
structure CsvMentionRow where
  mentioned_company : String
  filed_date : String
  year : Int
  num_mention : Int
deriving DecidableEq

/-- A row of the re-aggregated mention table built inside `read_data`. -/
structure MentionAggRow where
  mentioned_company : String
  year : Int
  num_mention : Int
deriving DecidableEq

/-- `df_mentions.groupby(['mentioned_company','year']).agg(
num_mention=('num_mention','sum')).reset_index()` — neither key can be
missing here, so no row is dropped.  Groups in first-occurrence order. -/
def regroupMentions (men : List CsvMentionRow) : List MentionAggRow :=
  ((men.map fun m => (m.mentioned_company, m.year)).dedup).map fun k =>
    ⟨k.1, k.2,
      ((men.filter fun m => m.mentioned_company = k.1 ∧ m.year = k.2).map (·.num_mention)).sum⟩

/-- A row of the merged regression-input frame before `fillna`:
`num_mention` is `none` where the left join found no match. -/
structure MergedInputRow where
  ticker : String
  year : Int
  annual_return_pct : ℚ
  num_mention : Option Int
deriving DecidableEq

/-- `pd.merge(df_return, df_mentions_agg, left_on=['ticker','year'],
right_on=['mentioned_company','year'], how='left')`. -/
def mergeLeftReturns (ret : List CsvReturnRow) (magg : List MentionAggRow) :
    List MergedInputRow :=
  ret.flatMap fun r =>
    let ms := magg.filter fun m => m.mentioned_company = r.ticker ∧ m.year = r.year
    if ms.isEmpty then [⟨r.ticker, r.year, r.annual_return_pct, none⟩]
    else ms.map fun m => ⟨r.ticker, r.year, r.annual_return_pct, some m.num_mention⟩

/-- A merged row after `fillna(0)` on `num_mention`. -/
structure AssembledRow where
  ticker : String
  year : Int
  annual_return_pct : ℚ
  num_mention : Int
deriving DecidableEq

/-- `df_input['num_mention'] = df_input['num_mention'].fillna(0)`. -/
def fillnaZero (rows : List MergedInputRow) : List AssembledRow :=
  rows.map fun r => ⟨r.ticker, r.year, r.annual_return_pct, r.num_mention.getD 0⟩

/-- Arithmetic mean of a list of rationals (pandas `mean`). -/
def qMean (l : List ℚ) : ℚ := l.sum / l.length

/-- `df_input.groupby('year')['annual_return_pct'].transform('mean')`
evaluated for one year. -/
def yearMeanReturn (rows : List AssembledRow) (y : Int) : ℚ :=
  qMean ((rows.filter fun r => r.year = y).map (·.annual_return_pct))

/-- A regression-input row still carrying `annual_return_pct`. -/
structure FullInputRow where
  ticker : String
  year : Int
  annual_return_pct : ℚ
  num_mention : Int
  res_return : ℚ
deriving DecidableEq

/-- `df_input['res_return'] = df_input['annual_return_pct'] -
df_input.groupby('year')['annual_return_pct'].transform('mean')`. -/
def addResReturn (rows : List AssembledRow) : List FullInputRow :=
  rows.map fun r =>
    ⟨r.ticker, r.year, r.annual_return_pct, r.num_mention,
      r.annual_return_pct - yearMeanReturn rows r.year⟩

/-- A row of `read_data`'s output after the final column selection. -/
structure RegressionInputRow where
  ticker : String
  year : Int
  num_mention : Int
  res_return : ℚ
deriving DecidableEq

/-- The fully assembled regression-input frame, before column selection. -/
def df_input_full (ret : List CsvReturnRow) (men : List CsvMentionRow) : List FullInputRow :=
  addResReturn (fillnaZero (mergeLeftReturns ret (regroupMentions men)))

/-- `read_data` (analyze_mention.py lines 7-18), as a function of the two
CSV tables it loads. -/
def read_data (ret : List CsvReturnRow) (men : List CsvMentionRow) : List RegressionInputRow :=
  (df_input_full ret men).map fun r => ⟨r.ticker, r.year, r.num_mention, r.res_return⟩

/-- One row of a raw daily price series (only `Date` and `Close` are
consumed by the return calculation).  The date is `yyyymmdd`. -/
structure PriceRow where
  date : Nat
  close : ℚ
deriving DecidableEq

/-- `df['Date'].dt.year` on a `yyyymmdd`-encoded date. -/
def yearOf (d : Nat) : Nat := d / 10000

/-- The row with minimal date, earliest-position among ties — the
`sort_values('Date')` followed by `iloc[0]` of `calculate_annual_returns`
(date ties cannot occur in a daily series). -/
def argminDate : List PriceRow → Option PriceRow
  | [] => none
  | r :: rest =>
    match argminDate rest with
    | none => some r
    | some m => if r.date ≤ m.date then some r else some m

/-- First trading row of a calendar year within a series
(`df[df['year'] == y].sort_values('Date').iloc[0]`), or `none` when the
year has no row. -/
def firstTradingRow (df : List PriceRow) (y : Nat) : Option PriceRow :=
  argminDate (df.filter fun r => yearOf r.date = y)

/-- `sorted(df['year'].unique())`. -/
def sortedYears (df : List PriceRow) : List Nat :=
  List.insertionSort (· ≤ ·) ((df.map fun r => yearOf r.date).dedup)

/-- Consecutive pairs by position: the `for i in range(len(years) - 1)`
loop pairs `years[i]` with `years[i + 1]`. -/
def consecutivePairs : List Nat → List (Nat × Nat)
  | a :: b :: t => (a, b) :: consecutivePairs (b :: t)
  | _ => []

/-- One emitted annual-return observation. -/
structure RetObs where
  ticker : String
  year : Nat
  start_date : Nat
  end_date : Nat
  start_price : ℚ
  end_price : ℚ
  annual_return_pct : ℚ
deriving DecidableEq

/-- `calculate_annual_returns` (process_stock_return.py lines 72-113):
for each positionally consecutive pair of distinct years, take the first
trading row of each; emit an observation unless the starting close is 0. -/
def calculate_annual_returns (df : List PriceRow) (ticker : String) : List RetObs :=
  (consecutivePairs (sortedYears df)).filterMap fun p =>
    match firstTradingRow df p.1, firstTradingRow df p.2 with
    | some fc, some fn =>
      if fc.close ≠ 0 then
        some ⟨ticker, p.1, fc.date, fn.date, fc.close, fn.close,
          (fn.close - fc.close) / fc.close * 100⟩
      else none
    | _, _ => none

/-- The flattened raw filing rows as a pure function, valid whenever every
year key parses as an integer. -/
def rawFlatten (dd : FilingStore) : List RawFilingRow :=
  dd.flatMap fun p => p.2.map fun q => ⟨p.1, (pyInt q.1).getD 0, getFiledDate q.2⟩

/-- A mention-count mapping embedded as a JSON object (the legacy schema
shape of a stored mention value). -/
def mkMentionObj (m : List (String × Int)) : JVal :=
  .jobj (m.map fun p => (p.1, JVal.jint p.2))

/-- The current (wrapped) schema shape for the same mention-count mapping,
with an arbitrary `dates` sub-object. -/
def mkWrappedObj (m : List (String × Int)) (dv : JVal) : JVal :=
  .jobj [("competitor_mentions", mkMentionObj m), ("dates", dv)]

/-- Concrete filing store: one filing for ("T", 2021), no filed date. -/
def dd_c1 : FilingStore := [("T", [("2021", ⟨some ⟨none⟩⟩)])]

/-- Concrete mention store: "T"'s 2020 filing mentions "A" 3 times; no
filing metadata exists for ("T", 2020). -/
def md_c1 : MentionStore := [("T", [("2020", .jobj [("A", .jint 3)])])]

/-- Concrete mention store with one positive and one zero count. -/
def md_c3w : MentionStore := [("T", [("2020", .jobj [("A", .jint 2), ("B", .jint 0)])])]

/-- A mention-count mapping that itself uses the key
`competitor_mentions`. -/
def m_c4 : List (String × Int) := [("competitor_mentions", 2)]

/-- A concrete ordinary mention-count mapping. -/
def m_c4w : List (String × Int) := [("A", 3)]

/-- Concrete filing store whose filed date string is unparsable. -/
def dd_c8bad : FilingStore := [("T", [("2020", ⟨some ⟨some "garbage"⟩⟩)])]

/-- Concrete filing store with an absent filed date. -/
def dd_c8w : FilingStore := [("T", [("2020", ⟨some ⟨none⟩⟩)])]

/-- Concrete annual-return table: three tickers in one year with returns
10, 20 and 30 percent. -/
def c6ret : List CsvReturnRow := [⟨"A", 2020, 10⟩, ⟨"B", 2020, 20⟩, ⟨"C", 2020, 30⟩]

/-- Concrete single-row annual-return table. -/
def ret_c5w : List CsvReturnRow := [⟨"A", 2020, 10⟩]

/-- Concrete aggregated-mention table whose only row concerns a different
year. -/
def men_c5w : List CsvMentionRow := [⟨"A", "2021-05-01", 2021, 5⟩]

/-- Concrete price series with trading days only in 2020 and 2022. -/
def px_c2 : List PriceRow := [⟨20200102, 100⟩, ⟨20220104, 110⟩]

/-- Concrete price series with trading days in 2020 and 2021. -/
def px_c2w : List PriceRow := [⟨20200102, 100⟩, ⟨20210104, 110⟩]

/-- Concrete price series whose 2020 first close is zero. -/
def px_c7w : List PriceRow := [⟨20200102, 0⟩, ⟨20210104, 110⟩]

lemma processEntries_ok (t y : String) :
    ∀ (entries : List (String × JVal)) (rs : List MentionRow),
      processEntries t y entries = .ok rs →
      rs.length = (entries.filter posIntP).length ∧ ∀ r ∈ rs, 0 < r.num_mention := by
  intro entries
  induction entries with
  | nil =>
    intro rs h
    simp only [processEntries, Except.ok.injEq] at h
    subst h
    simp
  | cons p rest ih =>
    obtain ⟨mt, c⟩ := p
    intro rs h
    cases c with
    | jint n =>
      simp only [processEntries] at h
      by_cases hn : 0 < n
      · rw [if_pos hn] at h
        cases hy : pyInt y with
        | none => rw [hy] at h; simp at h
        | some yi =>
          rw [hy] at h
          cases hrec : processEntries t y rest with
          | error e => rw [hrec] at h; simp at h
          | ok rs' =>
            rw [hrec] at h
            simp only [Except.ok.injEq] at h
            subst h
            obtain ⟨hlen, hpos⟩ := ih rs' hrec
            refine ⟨by simp [List.filter_cons, posIntP, hn, hlen], ?_⟩
            intro r hr
            rcases List.mem_cons.mp hr with hr | hr
            · subst hr; exact hn
            · exact hpos r hr
      · rw [if_neg hn] at h
        obtain ⟨hlen, hpos⟩ := ih rs h
        exact ⟨by simp [List.filter_cons, posIntP, hn, hlen], hpos⟩
    | jstr s => simp only [processEntries] at h; exact Except.noConfusion h
    | jobj fs => simp only [processEntries] at h; exact Except.noConfusion h

lemma processMentionValue_ok (t y : String) (v : JVal) (rs : List MentionRow)
    (h : processMentionValue t y v = .ok rs) :
    rs.length = posEntryCount v ∧ ∀ r ∈ rs, 0 < r.num_mention := by
  unfold processMentionValue at h
  unfold posEntryCount
  cases hv : normalizeMentions v with
  | jobj fs => rw [hv] at h; exact processEntries_ok t y fs rs h
  | jint n => rw [hv] at h; simp at h
  | jstr s => rw [hv] at h; simp at h

lemma mentionsRowsForYears_ok (t : String) :
    ∀ (ys : List (String × JVal)) (rs : List MentionRow),
      mentionsRowsForYears t ys = .ok rs →
      rs.length = (ys.map fun q => posEntryCount q.2).sum ∧ ∀ r ∈ rs, 0 < r.num_mention := by
  intro ys
  induction ys with
  | nil =>
    intro rs h
    simp only [mentionsRowsForYears, Except.ok.injEq] at h
    subst h
    simp
  | cons q rest ih =>
    obtain ⟨y, v⟩ := q
    intro rs h
    simp only [mentionsRowsForYears] at h
    cases h1 : processMentionValue t y v with
    | error e => rw [h1] at h; simp at h
    | ok r1 =>
      rw [h1] at h
      cases h2 : mentionsRowsForYears t rest with
      | error e => rw [h2] at h; simp at h
      | ok r2 =>
        rw [h2] at h
        simp only [Except.ok.injEq] at h
        subst h
        obtain ⟨l1, p1⟩ := processMentionValue_ok t y v r1 h1
        obtain ⟨l2, p2⟩ := ih r2 h2
        refine ⟨by simp [l1, l2], ?_⟩
        intro r hr
        rcases List.mem_append.mp hr with hr | hr
        · exact p1 r hr
        · exact p2 r hr

lemma mentionRowsAll_ok :
    ∀ (md : MentionStore) (rs : List MentionRow),
      mentionRowsAll md = .ok rs →
      rs.length = posCount md ∧ ∀ r ∈ rs, 0 < r.num_mention := by
  intro md
  induction md with
  | nil =>
    intro rs h
    simp only [mentionRowsAll, Except.ok.injEq] at h
    subst h
    simp [posCount]
  | cons p rest ih =>
    obtain ⟨t, ys⟩ := p
    intro rs h
    simp only [mentionRowsAll] at h
    cases h1 : mentionsRowsForYears t ys with
    | error e => rw [h1] at h; simp at h
    | ok r1 =>
      rw [h1] at h
      cases h2 : mentionRowsAll rest with
      | error e => rw [h2] at h; simp at h
      | ok r2 =>
        rw [h2] at h
        simp only [Except.ok.injEq] at h
        subst h
        obtain ⟨l1, p1⟩ := mentionsRowsForYears_ok t ys r1 h1
        obtain ⟨l2, p2⟩ := ih r2 h2
        refine ⟨by simp [posCount, l1, l2], ?_⟩
        intro r hr
        rcases List.mem_append.mp hr with hr | hr
        · exact p1 r hr
        · exact p2 r hr

/-- Claim C3: a row appears in the flattened MentionTable iff its source
mention count (after schema normalization) is strictly positive — the
output row count equals the total number of strictly positive
(mentioned_ticker, count) entries across all filing tickers and years, and
no output row has `num_mention ≤ 0`. -/
theorem C3_mention_table_positive (md : MentionStore) (dd : FilingStore) (df : MentionDF)
    (h : create_mentions_df md dd = .ok df) :
    df.rows.length = posCount md ∧ ∀ r ∈ df.rows, 0 < r.num_mention := by
  unfold create_mentions_df at h
  cases h1 : mentionRowsAll md with
  | error e => rw [h1] at h; simp at h
  | ok rows =>
    rw [h1] at h
    simp only [Except.ok.injEq] at h
    subst h
    exact mentionRowsAll_ok md rows h1

/-- Witness for claim C3 at a concrete store with one positive and one
zero count. -/
theorem C3_witness :
    (⟨["ticker", "year", "mentioned_company", "num_mention"],
      [⟨"T", 2020, "A", 2⟩]⟩ : MentionDF).rows.length = posCount md_c3w ∧
    ∀ r ∈ (⟨["ticker", "year", "mentioned_company", "num_mention"],
      [⟨"T", 2020, "A", 2⟩]⟩ : MentionDF).rows, 0 < r.num_mention :=
  C3_mention_table_positive md_c3w []
    ⟨["ticker", "year", "mentioned_company", "num_mention"], [⟨"T", 2020, "A", 2⟩]⟩
    (by decide)

/-- Claim C9, counterexample: on the empty outer mapping the builder
returns an empty frame with NO columns — `pd.DataFrame([])` has an empty
column index, not the (ticker, year, filed_date) schema. -/
theorem C9_counterexample :
    create_filing_summary_df [] = .ok ⟨[], []⟩ ∧
    (⟨[], []⟩ : FilingDF).columns ≠ ["ticker", "year", "filed_date"] := by decide

/-- Claim C9 as amended: an empty outer mapping produces an empty table
whose column list is empty — the (ticker, year, filed_date) schema of the
non-empty case is NOT preserved (and a downstream merge on those columns
raises KeyError). -/
theorem C9_empty_store_amended :
    create_filing_summary_df [] = .ok ⟨[], []⟩ ∧ (⟨[], []⟩ : FilingDF).columns = [] := by
  decide

/-- Claim C1, counterexample: with a mention row for ("T", 2020) and
filing metadata only for ("T", 2021), the joined table holds one row with
3 mentions of "A" in 2020 and a null filed_date, yet the aggregated table
attributes 0 mentions to ("A", 2020) — the NaT row is dropped by the
groupby, so the claimed equality 0 = 3 fails. -/
theorem C1_counterexample :
    (process_and_save_data dd_c1 md_c1).map
      (fun p => (joinedSumAll p.1 "A" 2020, aggSum p.2 "A" 2020)) = .ok (3, 0) ∧
    (3 : Int) ≠ 0 := by decide

/-- Claim C2, counterexample: a series with trading days only in 2020 and
2022 emits an observation labeled 2020 whose end_date falls in 2022, not
in 2021 — consecutive DISTINCT years are paired, not Y and Y+1. -/
theorem C2_counterexample :
    (calculate_annual_returns px_c2 "X").map (fun o => (o.year, yearOf o.end_date)) =
      [(2020, 2022)] ∧ (2022 : Nat) ≠ 2020 + 1 := by decide

/-- Claim C4, counterexample: for the mention-count mapping
m_c4, whose only key is the string "competitor_mentions", the legacy
shape is misread as the current shape — the builder raises
AttributeError on the legacy shape but succeeds on the wrapped shape, so
the two are not indistinguishable. -/
theorem C4_counterexample :
    create_mentions_df [("T", [("2020", mkMentionObj m_c4)])] [] =
      .error "AttributeError: object has no attribute items" ∧
    (create_mentions_df [("T", [("2020", mkWrappedObj m_c4 (.jobj []))])] []).map (·.rows) =
      .ok [⟨"T", 2020, "competitor_mentions", 2⟩] ∧
    create_mentions_df [("T", [("2020", mkMentionObj m_c4)])] [] ≠
      create_mentions_df [("T", [("2020", mkWrappedObj m_c4 (.jobj []))])] [] := by decide

/-- Claim C8, counterexample: a present filed_date string that fails to
parse makes the builder raise (pd.to_datetime defaults to
errors='raise'), contradicting "never raises". -/
theorem C8_counterexample :
    create_filing_summary_df dd_c8bad =
      .error "DateParseError: could not parse filed_date" := by decide

lemma normalizeMentions_mkMentionObj (m : List (String × Int))
    (hk : "competitor_mentions" ∉ m.map Prod.fst) :
    normalizeMentions (mkMentionObj m) = .jobj (m.map fun p => (p.1, JVal.jint p.2)) := by
  simp only [normalizeMentions, mkMentionObj, jGet]
  have hfind : (m.map fun p => (p.1, JVal.jint p.2)).find?
      (fun p => p.1 = "competitor_mentions") = none := by
    rw [List.find?_eq_none]
    intro x hx
    simp only [List.mem_map] at hx
    obtain ⟨q, hq, rfl⟩ := hx
    simp only [decide_eq_true_eq]
    intro hc
    exact hk (hc ▸ List.mem_map_of_mem Prod.fst hq)
  simp [hfind]

lemma normalizeMentions_mkWrappedObj (m : List (String × Int)) (dv : JVal) :
    normalizeMentions (mkWrappedObj m dv) = mkMentionObj m := by
  simp [normalizeMentions, mkWrappedObj, jGet, List.find?]

/-- Claim C4 as amended: for every mention-count mapping m that does NOT
itself contain the key "competitor_mentions", the builder produces
identical output whether the stored value has the legacy shape (m itself)
or the current shape (m wrapped under "competitor_mentions" beside a
"dates" object).  The restriction is forced: a mapping whose key is the
string "competitor_mentions" is misread as the current shape. -/
theorem C4_schema_equivalence_amended (t y : String) (m : List (String × Int)) (dv : JVal)
    (dd : FilingStore) (hk : "competitor_mentions" ∉ m.map Prod.fst) :
    create_mentions_df [(t, [(y, mkMentionObj m)])] dd =
      create_mentions_df [(t, [(y, mkWrappedObj m dv)])] dd := by
  have h1 := normalizeMentions_mkMentionObj m hk
  have h2 := normalizeMentions_mkWrappedObj m dv
  simp only [mkMentionObj] at h1 h2
  simp only [create_mentions_df, mentionRowsAll, mentionsRowsForYears, processMentionValue,
    h1, h2, mkMentionObj]

/-- Witness for the amended claim C4 at a concrete mapping. -/
theorem C4_witness :
    create_mentions_df [("T", [("2020", mkMentionObj m_c4w)])] [] =
      create_mentions_df [("T", [("2020", mkWrappedObj m_c4w (.jobj []))])] [] :=
  C4_schema_equivalence_amended "T" "2020" m_c4w (.jobj []) [] (by decide)

lemma rawRowsOfTicker_ok_of (t : String) :
    ∀ ys : List (String × FilingInfo), (∀ q ∈ ys, (pyInt q.1).isSome) →
      rawRowsOfTicker t ys =
        .ok (ys.map fun q => ⟨t, (pyInt q.1).getD 0, getFiledDate q.2⟩) := by
  intro ys
  induction ys with
  | nil => intro _; rfl
  | cons q rest ih =>
    intro h
    obtain ⟨y, info⟩ := q
    obtain ⟨yi, hyi⟩ := Option.isSome_iff_exists.mp (h _ (List.mem_cons_self _ _))
    have hrest := ih fun q hq => h q (List.mem_cons_of_mem _ hq)
    simp only [rawRowsOfTicker, hyi, hrest, List.map_cons]
    simp [hyi]

lemma rawFilingRows_ok_of :
    ∀ dd : FilingStore, (∀ p ∈ dd, ∀ q ∈ p.2, (pyInt q.1).isSome) →
      rawFilingRows dd = .ok (rawFlatten dd) := by
  intro dd
  induction dd with
  | nil => intro _; rfl
  | cons p rest ih =>
    intro h
    obtain ⟨t, ys⟩ := p
    have h1 := rawRowsOfTicker_ok_of t ys fun q hq => h _ (List.mem_cons_self _ _) q hq
    have h2 := ih fun p hp q hq => h p (List.mem_cons_of_mem _ hp) q hq
    simp only [rawFilingRows, h1, h2, rawFlatten, List.flatMap_cons]

lemma toDatetimeCol_ok_of :
    ∀ raws : List RawFilingRow,
      (∀ r ∈ raws, ∀ s, r.filed_date = some s → (parseDate s).isSome) →
      toDatetimeCol raws =
        .ok (raws.map fun r => ⟨r.ticker, r.year, r.filed_date.bind parseDate⟩) := by
  intro raws
  induction raws with
  | nil => intro _; rfl
  | cons r rest ih =>
    intro h
    have hrest := ih fun r hr => h r (List.mem_cons_of_mem _ hr)
    cases hd : r.filed_date with
    | none => simp only [toDatetimeCol, hd, hrest, List.map_cons, Option.bind]
    | some s =>
      obtain ⟨d, hds⟩ :=
        Option.isSome_iff_exists.mp (h r (List.mem_cons_self _ _) s hd)
      simp only [toDatetimeCol, hd, hds, hrest, List.map_cons, Option.bind]

/-- Claim C8 as amended: the builder returns normally provided every
present filed_date string parses as a date and every year key is numeric;
an absent filed_date becomes a null filed_date in the output row.  (As
stated the claim fails: an unparsable present string raises, see the
counterexample.) -/
theorem C8_filing_builder_amended (dd : FilingStore)
    (h : ∀ p ∈ dd, ∀ q ∈ p.2, (pyInt q.1).isSome ∧
      ∀ s, getFiledDate q.2 = some s → (parseDate s).isSome) :
    ∃ df, create_filing_summary_df dd = .ok df ∧
      ∀ p ∈ dd, ∀ q ∈ p.2, getFiledDate q.2 = none →
        (⟨p.1, (pyInt q.1).getD 0, none⟩ : FilingRow) ∈ df.rows := by
  have h1 := rawFilingRows_ok_of dd fun p hp q hq => (h p hp q hq).1
  have h2 : ∀ r ∈ rawFlatten dd, ∀ s, r.filed_date = some s → (parseDate s).isSome := by
    intro r hr s hs
    simp only [rawFlatten, List.mem_flatMap, List.mem_map] at hr
    obtain ⟨p, hp, q, hq, rfl⟩ := hr
    exact (h p hp q hq).2 s hs
  cases hemp : (rawFlatten dd).isEmpty with
  | true =>
    refine ⟨⟨[], []⟩, ?_, ?_⟩
    · simp [create_filing_summary_df, h1, hemp]
    · intro p hp q hq _
      exfalso
      have : (⟨p.1, (pyInt q.1).getD 0, getFiledDate q.2⟩ : RawFilingRow) ∈ rawFlatten dd := by
        simp only [rawFlatten, List.mem_flatMap]
        exact ⟨p, hp, List.mem_map_of_mem _ hq⟩
      rw [List.isEmpty_iff.mp hemp] at this
      exact List.not_mem_nil _ this
  | false =>
    refine ⟨⟨["ticker", "year", "filed_date"],
      (rawFlatten dd).map fun r => ⟨r.ticker, r.year, r.filed_date.bind parseDate⟩⟩, ?_, ?_⟩
    · simp [create_filing_summary_df, h1, hemp, toDatetimeCol_ok_of (rawFlatten dd) h2]
    · intro p hp q hq habs
      have hmem : (⟨p.1, (pyInt q.1).getD 0, getFiledDate q.2⟩ : RawFilingRow) ∈ rawFlatten dd := by
        simp only [rawFlatten, List.mem_flatMap]
        exact ⟨p, hp, List.mem_map_of_mem _ hq⟩
      have := List.mem_map_of_mem
        (fun r : RawFilingRow => (⟨r.ticker, r.year, r.filed_date.bind parseDate⟩ : FilingRow))
        hmem
      simpa [habs] using this

/-- Witness for the amended claim C8 at a concrete store with one absent
filed_date. -/
theorem C8_witness :
    ∃ df, create_filing_summary_df dd_c8w = .ok df ∧
      ∀ p ∈ dd_c8w, ∀ q ∈ p.2, getFiledDate q.2 = none →
        (⟨p.1, (pyInt q.1).getD 0, none⟩ : FilingRow) ∈ df.rows :=
  C8_filing_builder_amended dd_c8w (by
    intro p hp q hq
    simp only [dd_c8w, List.mem_singleton] at hp
    subst hp
    simp only [List.mem_singleton] at hq
    subst hq
    refine ⟨by decide, ?_⟩
    intro s hs
    simp [getFiledDate] at hs)

lemma sum_map_add_int {α : Type} (l : List α) (f g : α → Int) :
    (l.map fun a => f a + g a).sum = (l.map f).sum + (l.map g).sum := by
  induction l with
  | nil => simp
  | cons a t ih => simp only [List.map_cons, List.sum_cons, ih]; ring

lemma sum_filter_single {α : Type} [DecidableEq α] (p : α → Bool) (k0 : α) (v : Int) :
    ∀ ks : List α, ks.Nodup →
      ((ks.filter p).map fun k => if k = k0 then v else 0).sum =
        if k0 ∈ ks ∧ p k0 = true then v else 0 := by
  intro ks
  induction ks with
  | nil => intro _; simp
  | cons a t ih =>
    intro hnd
    rw [List.nodup_cons] at hnd
    rw [List.filter_cons]
    by_cases hPa : p a = true
    · rw [if_pos hPa]
      simp only [List.map_cons, List.sum_cons]
      by_cases hak : a = k0
      · subst hak
        rw [if_pos rfl, ih hnd.2, if_neg fun hc => hnd.1 hc.1,
          if_pos ⟨List.mem_cons_self _ _, hPa⟩, add_zero]
      · rw [if_neg hak, ih hnd.2, zero_add]
        have hiff : (k0 ∈ a :: t ∧ p k0 = true) ↔ (k0 ∈ t ∧ p k0 = true) := by
          constructor
          · rintro ⟨hm, hp⟩
            rcases List.mem_cons.mp hm with h | h
            · exact absurd h.symm hak
            · exact ⟨h, hp⟩
          · rintro ⟨hm, hp⟩
            exact ⟨List.mem_cons_of_mem _ hm, hp⟩
        rw [if_congr hiff rfl rfl]
    · rw [if_neg hPa, ih hnd.2]
      have hiff : (k0 ∈ t ∧ p k0 = true) ↔ (k0 ∈ a :: t ∧ p k0 = true) := by
        constructor
        · rintro ⟨hm, hp⟩
          exact ⟨List.mem_cons_of_mem _ hm, hp⟩
        · rintro ⟨hm, hp⟩
          rcases List.mem_cons.mp hm with h | h
          · subst h; exact absurd hp hPa
          · exact ⟨h, hp⟩
      rw [if_congr hiff rfl rfl]

lemma groupSum_cons (r : JoinedRow) (rest : List JoinedRow) (k : String × Nat × Int) :
    groupSum (r :: rest) k =
      (if keyOf r = some k then r.num_mention else 0) + groupSum rest k := by
  simp only [groupSum, List.filter_cons]
  by_cases h : keyOf r = some k
  · simp [h]
  · simp [h]

lemma groupSum_eq_zero {rows : List JoinedRow} {k : String × Nat × Int}
    (h : k ∉ rows.filterMap keyOf) : groupSum rows k = 0 := by
  have hnil : rows.filter (fun r => keyOf r = some k) = [] := by
    rw [List.filter_eq_nil_iff]
    intro a ha
    simp only [decide_eq_true_eq]
    intro hk
    exact h (List.mem_filterMap.mpr ⟨a, ha, hk⟩)
  simp [groupSum, hnil]

lemma joinedSumDated_cons (r : JoinedRow) (rest : List JoinedRow) (mc : String) (y : Int) :
    joinedSumDated (r :: rest) mc y =
      (if r.mentioned_company = mc ∧ r.year = y ∧ r.filed_date.isSome then r.num_mention
        else 0) + joinedSumDated rest mc y := by
  simp only [joinedSumDated, List.filter_cons]
  by_cases h : r.mentioned_company = mc ∧ r.year = y ∧ r.filed_date.isSome
  · simp [h]
  · simp [h]

lemma keys_sum (mc : String) (y : Int) :
    ∀ rows : List JoinedRow,
      ((((rows.filterMap keyOf).dedup).filter fun k => k.1 = mc ∧ k.2.2 = y).map
        (groupSum rows)).sum = joinedSumDated rows mc y := by
  intro rows
  induction rows with
  | nil => simp [joinedSumDated, groupSum]
  | cons r rest ih =>
    cases hk : keyOf r with
    | none =>
      have hfd : r.filed_date = none := by
        cases hfd : r.filed_date with
        | none => rfl
        | some d => simp [keyOf, hfd] at hk
      rw [List.filterMap_cons_none hk]
      have hnum : ∀ k ∈ ((rest.filterMap keyOf).dedup).filter
          (fun k => decide (k.1 = mc ∧ k.2.2 = y)),
          groupSum (r :: rest) k = groupSum rest k := by
        intro k _
        rw [groupSum_cons, hk]
        simp
      rw [List.map_congr_left hnum, ih, joinedSumDated_cons]
      simp [hfd]
    | some k0 =>
      rw [List.filterMap_cons_some hk]
      obtain ⟨d, hfd, hk0⟩ :
          ∃ d, r.filed_date = some d ∧ k0 = (r.mentioned_company, d, r.year) := by
        cases hfd : r.filed_date with
        | none => simp [keyOf, hfd] at hk
        | some d =>
          refine ⟨d, rfl, ?_⟩
          simp [keyOf, hfd] at hk
          exact hk.symm
      have hcond : (r.mentioned_company = mc ∧ r.year = y ∧ r.filed_date.isSome = true) ↔
          (k0.1 = mc ∧ k0.2.2 = y) := by
        subst hk0
        simp [hfd]
      by_cases hmem : k0 ∈ rest.filterMap keyOf
      · rw [List.dedup_cons_of_mem hmem]
        have hsplit : ∀ k, groupSum (r :: rest) k =
            (if k = k0 then r.num_mention else 0) + groupSum rest k := by
          intro k
          rw [groupSum_cons]
          congr 1
          by_cases hkk : k = k0
          · subst hkk
            rw [if_pos hk, if_pos rfl]
          · rw [if_neg, if_neg hkk]
            rw [hk]
            simpa using fun h => hkk h.symm
        rw [List.map_congr_left fun k _ => hsplit k, sum_map_add_int,
          sum_filter_single _ k0 r.num_mention _ (List.nodup_dedup _), ih,
          joinedSumDated_cons]
        congr 1
        have hiff : (k0 ∈ (rest.filterMap keyOf).dedup ∧
            (decide (k0.1 = mc ∧ k0.2.2 = y)) = true) ↔
            (r.mentioned_company = mc ∧ r.year = y ∧ r.filed_date.isSome = true) := by
          rw [List.mem_dedup, decide_eq_true_eq]
          constructor
          · rintro ⟨_, hp⟩
            exact hcond.mpr hp
          · intro hc
            exact ⟨hmem, hcond.mp hc⟩
        simp only [hiff]
      · rw [List.dedup_cons_of_not_mem hmem, List.filter_cons]
        have hnum : ∀ k ∈ ((rest.filterMap keyOf).dedup).filter
            (fun k => decide (k.1 = mc ∧ k.2.2 = y)),
            groupSum (r :: rest) k = groupSum rest k := by
          intro k hkm
          have hk_mem : k ∈ rest.filterMap keyOf :=
            List.mem_dedup.mp (List.mem_filter.mp hkm).1
          have hne : k ≠ k0 := fun hkeq => hmem (hkeq ▸ hk_mem)
          rw [groupSum_cons, if_neg, zero_add]
          rw [hk]
          simpa using fun h => hne h.symm
        by_cases hP : k0.1 = mc ∧ k0.2.2 = y
        · rw [if_pos (by simpa using hP)]
          simp only [List.map_cons, List.sum_cons]
          have hg : groupSum (r :: rest) k0 = r.num_mention := by
            rw [groupSum_cons, if_pos hk, groupSum_eq_zero hmem, add_zero]
          rw [hg, List.map_congr_left hnum, ih, joinedSumDated_cons,
            if_pos (hcond.mpr hP)]
        · rw [if_neg (by simpa using hP), List.map_congr_left hnum, ih,
            joinedSumDated_cons, if_neg fun hc => hP (hcond.mp hc), zero_add]

lemma groupbyAgg_sum (rows : List JoinedRow) (mc : String) (y : Int) :
    aggSum (groupbyAgg rows) mc y = joinedSumDated rows mc y := by
  have h1 : aggSum (groupbyAgg rows) mc y =
      (((joinKeys rows).filter fun k => k.1 = mc ∧ k.2.2 = y).map (groupSum rows)).sum := by
    simp only [aggSum, groupbyAgg, List.filter_map, List.map_map]
    rfl
  rw [h1]
  exact keys_sum mc y rows

/-- Claim C1 as amended: after the right-join and the groupby-sum, the
total aggregated num_mention for a given (mentioned_company, year) equals
the sum of num_mention across the pre-aggregation joined rows with that
mentioned_company and year whose filed_date is NOT null — rows whose
filed_date is null (no filing metadata matched) are dropped by pandas
groupby's default dropna and contribute nothing. -/
theorem C1_aggregation_amended (dfF : List FilingRow) (dfM : List MentionRow)
    (mc : String) (y : Int) :
    aggSum (groupbyAgg (mergeRight dfF dfM)) mc y =
      joinedSumDated (mergeRight dfF dfM) mc y :=
  groupbyAgg_sum (mergeRight dfF dfM) mc y

lemma regroup_key_mem (men : List CsvMentionRow) (a : MentionAggRow)
    (ha : a ∈ regroupMentions men) :
    ∃ m ∈ men, m.mentioned_company = a.mentioned_company ∧ m.year = a.year := by
  simp only [regroupMentions, List.mem_map] at ha
  obtain ⟨k, hk, rfl⟩ := ha
  rw [List.mem_dedup] at hk
  simp only [List.mem_map] at hk
  obtain ⟨m, hm, hkey⟩ := hk
  exact ⟨m, hm, by rw [← hkey], by rw [← hkey]⟩

/-- Claim C5: a (ticker, year) present in the annual-return table but with
no matching aggregated mention row yields num_mention equal to 0 in the
output row (never a null marker — the type of the output field is a plain
integer precisely because fillna(0) has replaced every missing value). -/
theorem C5_left_join_zero_fill (ret : List CsvReturnRow) (men : List CsvMentionRow)
    (t : String) (y : Int)
    (h : ∀ m ∈ men, ¬(m.mentioned_company = t ∧ m.year = y)) :
    ∀ o ∈ read_data ret men, o.ticker = t → o.year = y → o.num_mention = 0 := by
  intro o ho ht hy
  simp only [read_data, List.mem_map] at ho
  obtain ⟨f, hf, rfl⟩ := ho
  simp only [df_input_full, addResReturn, List.mem_map] at hf
  obtain ⟨a, ha, rfl⟩ := hf
  simp only [fillnaZero, List.mem_map] at ha
  obtain ⟨mg, hmg, rfl⟩ := ha
  simp only [mergeLeftReturns, List.mem_flatMap] at hmg
  obtain ⟨r, _, hmem⟩ := hmg
  split at hmem
  · rw [List.mem_singleton] at hmem
    subst hmem
    rfl
  · rw [List.mem_map] at hmem
    obtain ⟨m, hmf, hmeq⟩ := hmem
    exfalso
    have hmr := List.mem_filter.mp hmf
    obtain ⟨mrow, hmrow, hmc, hmy⟩ := regroup_key_mem men m hmr.1
    have hkey := hmr.2
    simp only [decide_eq_true_eq] at hkey
    have hticker : mg.ticker = r.ticker := by rw [← hmeq]
    have hyear : mg.year = r.year := by rw [← hmeq]
    apply h mrow hmrow
    constructor
    · rw [hmc, hkey.1, ← hticker]; exact ht
    · rw [hmy, hkey.2, ← hyear]; exact hy

/-- Witness for claim C5 at a concrete pair of tables where the only
mention row concerns a different company. -/
theorem C5_witness :
    (⟨"A", 2020, 0, 0⟩ : RegressionInputRow).num_mention = 0 :=
  C5_left_join_zero_fill ret_c5w men_c5w "A" 2020 (by decide) ⟨"A", 2020, 0, 0⟩
    (by norm_num [read_data, df_input_full, addResReturn, fillnaZero, mergeLeftReturns,
      regroupMentions, yearMeanReturn, qMean, ret_c5w, men_c5w, List.filter_cons])
    rfl rfl

/-- Claim C6: every row's res_return equals its annual_return_pct minus
the mean annual_return_pct over all rows sharing that row's year; in
particular, returns of 10, 20, 30 in one year demean to exactly −10, 0,
10. -/
theorem C6_cross_sectional_demeaning :
    (∀ (ret : List CsvReturnRow) (men : List CsvMentionRow),
      ∀ r ∈ df_input_full ret men,
        r.res_return = r.annual_return_pct -
          qMean (((df_input_full ret men).filter fun s => s.year = r.year).map
            (·.annual_return_pct))) ∧
    read_data c6ret [] =
      [⟨"A", 2020, 0, -10⟩, ⟨"B", 2020, 0, 0⟩, ⟨"C", 2020, 0, 10⟩] := by
  constructor
  · intro ret men r hr
    simp only [df_input_full, addResReturn, List.mem_map] at hr
    obtain ⟨a, ha, rfl⟩ := hr
    dsimp only
    congr 1
    unfold yearMeanReturn
    congr 1
    simp only [df_input_full, addResReturn, List.filter_map, List.map_map]
    rfl
  · norm_num [read_data, df_input_full, addResReturn, fillnaZero, mergeLeftReturns,
      regroupMentions, yearMeanReturn, qMean, c6ret]

/-- Witness for claim C6's general clause at the concrete three-ticker
table. -/
theorem C6_witness :
    (⟨"A", 2020, 10, 0, -10⟩ : FullInputRow).res_return =
      (⟨"A", 2020, 10, 0, -10⟩ : FullInputRow).annual_return_pct -
        qMean (((df_input_full c6ret []).filter fun s =>
          s.year = (⟨"A", 2020, 10, 0, -10⟩ : FullInputRow).year).map
            (·.annual_return_pct)) :=
  C6_cross_sectional_demeaning.1 c6ret [] ⟨"A", 2020, 10, 0, -10⟩
    (by norm_num [df_input_full, addResReturn, fillnaZero, mergeLeftReturns,
      regroupMentions, yearMeanReturn, qMean, c6ret])

lemma filter_key_len_le_one (magg : List MentionAggRow) (t : String) (y : Int) :
    ((magg.map fun m => (m.mentioned_company, m.year)).Nodup) →
    (magg.filter fun m => m.mentioned_company = t ∧ m.year = y).length ≤ 1 := by
  induction magg with
  | nil => intro _; simp
  | cons m rest ih =>
    intro h
    simp only [List.map_cons, List.nodup_cons] at h
    rw [List.filter_cons]
    by_cases hm : m.mentioned_company = t ∧ m.year = y
    · rw [if_pos (by simpa using hm)]
      have hnil : rest.filter (fun m => decide (m.mentioned_company = t ∧ m.year = y)) = [] := by
        rw [List.filter_eq_nil_iff]
        intro a ha
        simp only [decide_eq_true_eq]
        rintro ⟨h1, h2⟩
        apply h.1
        have hpair : (m.mentioned_company, m.year) = (a.mentioned_company, a.year) := by
          rw [hm.1, hm.2, h1, h2]
        rw [hpair]
        exact List.mem_map_of_mem _ ha
      rw [hnil]
      simp
    · rw [if_neg (by simpa using hm)]
      exact ih h.2

lemma regroup_keys_nodup (men : List CsvMentionRow) :
    ((regroupMentions men).map fun m => (m.mentioned_company, m.year)).Nodup := by
  unfold regroupMentions
  rw [List.map_map]
  exact List.Nodup.map_on (fun x _ y _ h => h) (List.nodup_dedup _)

lemma mergeLeft_eq_map (ret : List CsvReturnRow) (magg : List MentionAggRow)
    (h : (magg.map fun m => (m.mentioned_company, m.year)).Nodup) :
    mergeLeftReturns ret magg = ret.map fun r =>
      match magg.filter fun m => m.mentioned_company = r.ticker ∧ m.year = r.year with
      | [] => ⟨r.ticker, r.year, r.annual_return_pct, none⟩
      | m :: _ => ⟨r.ticker, r.year, r.annual_return_pct, some m.num_mention⟩ := by
  induction ret with
  | nil => rfl
  | cons r rest ih =>
    have ih' := ih
    simp only [mergeLeftReturns] at ih' ⊢
    rw [List.flatMap_cons, ih', List.map_cons]
    cases hf : magg.filter fun m => m.mentioned_company = r.ticker ∧ m.year = r.year with
    | nil => simp [hf]
    | cons m tl =>
      have hlen := filter_key_len_le_one magg r.ticker r.year h
      rw [hf] at hlen
      have htl : tl = [] := by
        cases tl with
        | nil => rfl
        | cons x xs => simp at hlen
      subst htl
      simp [hf]

/-- Claim C10: `read_data` re-sums the aggregated mention rows over
(mentioned_company, year) before the left join, so the join key is unique
on the right side and the output has exactly one row per annual-return
row, positionally aligned with it — the join never duplicates a return
observation. -/
theorem C10_no_join_duplication (ret : List CsvReturnRow) (men : List CsvMentionRow) :
    (read_data ret men).length = ret.length ∧
    ∀ i : Nat, ((read_data ret men)[i]?).map (fun o => (o.ticker, o.year)) =
      (ret[i]?).map fun r => (r.ticker, r.year) := by
  have hmerge := mergeLeft_eq_map ret (regroupMentions men) (regroup_keys_nodup men)
  constructor
  · simp [read_data, df_input_full, addResReturn, fillnaZero, hmerge]
  · intro i
    simp only [read_data, df_input_full, addResReturn, fillnaZero, hmerge, List.map_map,
      List.getElem?_map]
    cases ret[i]? with
    | none => rfl
    | some r =>
      cases hf : (regroupMentions men).filter
          (fun m => decide (m.mentioned_company = r.ticker) && decide (m.year = r.year)) with
      | nil => simp [Function.comp, hf]
      | cons m tl => simp [Function.comp, hf]

lemma consecutivePairs_mem :
    ∀ (l : List Nat) (a b : Nat), (a, b) ∈ consecutivePairs l → a ∈ l ∧ b ∈ l := by
  intro l
  induction l with
  | nil => intro a b h; simp [consecutivePairs] at h
  | cons x t ih =>
    intro a b h
    cases t with
    | nil => simp [consecutivePairs] at h
    | cons z tt =>
      rw [consecutivePairs] at h
      rcases List.mem_cons.mp h with h | h
      · obtain ⟨rfl, rfl⟩ := Prod.mk.injEq .. ▸ h
        constructor
        · exact List.mem_cons_self _ _
        · exact List.mem_cons_of_mem _ (List.mem_cons_self _ _)
      · obtain ⟨ha, hb⟩ := ih a b h
        exact ⟨List.mem_cons_of_mem _ ha, List.mem_cons_of_mem _ hb⟩

lemma consecutivePairs_sorted_lt :
    ∀ l : List Nat, l.Sorted (· < ·) → ∀ a b : Nat, (a, b) ∈ consecutivePairs l →
      a < b ∧ ∀ z ∈ l, z ≤ a ∨ b ≤ z := by
  intro l
  induction l with
  | nil => intro _ a b hmem; simp [consecutivePairs] at hmem
  | cons x t ih =>
    intro hs a b hmem
    rw [List.sorted_cons] at hs
    cases t with
    | nil => simp [consecutivePairs] at hmem
    | cons z tt =>
      rw [consecutivePairs] at hmem
      rcases List.mem_cons.mp hmem with heq | htail
      · obtain ⟨hax, hbz⟩ := Prod.ext_iff.mp heq
        refine ⟨?_, ?_⟩
        · have hxz := hs.1 z (List.mem_cons_self _ _)
          omega
        · intro w hw
          rcases List.mem_cons.mp hw with hwx | hw2
          · omega
          · rcases List.mem_cons.mp hw2 with hwz | hw3
            · omega
            · have hzw := (List.sorted_cons.mp hs.2).1 w hw3
              omega
      · obtain ⟨hab, hall⟩ := ih hs.2 a b htail
        refine ⟨hab, ?_⟩
        intro w hw
        rcases List.mem_cons.mp hw with hwx | hw2
        · obtain ⟨haz, _⟩ := consecutivePairs_mem (z :: tt) a b htail
          have hxa := hs.1 a haz
          omega
        · exact hall w hw2

lemma sortedYears_sorted_lt (df : List PriceRow) : (sortedYears df).Sorted (· < ·) := by
  have hs : (sortedYears df).Sorted (· ≤ ·) := List.sorted_insertionSort _ _
  have hperm := List.perm_insertionSort (· ≤ ·) ((df.map fun r => yearOf r.date).dedup)
  have hnd : (sortedYears df).Nodup :=
    hperm.nodup_iff.mpr (List.nodup_dedup _)
  exact (hs.and hnd).imp fun hab => lt_of_le_of_ne hab.1 hab.2

lemma mem_sortedYears (df : List PriceRow) (z : Nat) :
    z ∈ sortedYears df ↔ ∃ r ∈ df, yearOf r.date = z := by
  rw [sortedYears, (List.perm_insertionSort _ _).mem_iff, List.mem_dedup, List.mem_map]

lemma argminDate_mem : ∀ (l : List PriceRow) (r : PriceRow), argminDate l = some r → r ∈ l := by
  intro l
  induction l with
  | nil => intro r h; simp [argminDate] at h
  | cons x t ih =>
    intro r h
    rw [argminDate] at h
    cases hm : argminDate t with
    | none =>
      simp only [hm, Option.some.injEq] at h
      subst h
      exact List.mem_cons_self _ _
    | some m =>
      simp only [hm] at h
      by_cases hle : x.date ≤ m.date
      · rw [if_pos hle] at h
        simp only [Option.some.injEq] at h
        subst h
        exact List.mem_cons_self _ _
      · rw [if_neg hle] at h
        simp only [Option.some.injEq] at h
        subst h
        exact List.mem_cons_of_mem _ (ih m hm)

lemma firstTradingRow_spec (df : List PriceRow) (y : Nat) (fr : PriceRow)
    (h : firstTradingRow df y = some fr) : fr ∈ df ∧ yearOf fr.date = y := by
  have hm := argminDate_mem _ _ h
  have := List.mem_filter.mp hm
  exact ⟨this.1, by simpa using this.2⟩

lemma calculate_annual_returns_inv (df : List PriceRow) (ticker : String) (obs : RetObs)
    (h : obs ∈ calculate_annual_returns df ticker) :
    ∃ cy ny fc fn, (cy, ny) ∈ consecutivePairs (sortedYears df) ∧
      firstTradingRow df cy = some fc ∧ firstTradingRow df ny = some fn ∧
      fc.close ≠ 0 ∧
      obs = ⟨ticker, cy, fc.date, fn.date, fc.close, fn.close,
        (fn.close - fc.close) / fc.close * 100⟩ := by
  rw [calculate_annual_returns, List.mem_filterMap] at h
  obtain ⟨p, hp, hsome⟩ := h
  refine ⟨p.1, p.2, ?_⟩
  cases h1 : firstTradingRow df p.1 with
  | none => simp [h1] at hsome
  | some fc =>
    cases h2 : firstTradingRow df p.2 with
    | none => simp [h1, h2] at hsome
    | some fn =>
      simp only [h1, h2] at hsome
      by_cases hz : fc.close ≠ 0
      · rw [if_pos hz] at hsome
        simp only [Option.some.injEq] at hsome
        exact ⟨fc, fn, hp, rfl, rfl, hz, hsome.symm⟩
      · rw [if_neg hz] at hsome
        exact absurd hsome (by simp)

/-- Claim C2 as amended: an observation labeled with year Y exists only if
year Y has a trading day and some LATER year has a trading day in the
series; its end_date falls in the earliest trading year after Y — which is
Y+1 only when year Y+1 is present.  Consecutive DISTINCT years are paired
positionally, so a missing calendar year is silently skipped. -/
theorem C2_year_pairing_amended (df : List PriceRow) (ticker : String) :
    ∀ obs ∈ calculate_annual_returns df ticker,
      (∃ r ∈ df, yearOf r.date = obs.year) ∧
      (∃ r ∈ df, yearOf r.date = yearOf obs.end_date) ∧
      obs.year < yearOf obs.end_date ∧
      ∀ r ∈ df, yearOf r.date ≤ obs.year ∨ yearOf obs.end_date ≤ yearOf r.date := by
  intro obs h
  obtain ⟨cy, ny, fc, fn, hpair, h1, h2, _, rfl⟩ :=
    calculate_annual_returns_inv df ticker obs h
  obtain ⟨hcy, hny⟩ := consecutivePairs_mem _ cy ny hpair
  obtain ⟨hlt, hgap⟩ := consecutivePairs_sorted_lt _ (sortedYears_sorted_lt df) cy ny hpair
  have hfny : yearOf fn.date = ny := (firstTradingRow_spec df ny fn h2).2
  refine ⟨(mem_sortedYears df cy).mp hcy, ?_, ?_, ?_⟩
  · rw [show yearOf fn.date = ny from hfny]
    exact (mem_sortedYears df ny).mp hny
  · rw [show yearOf fn.date = ny from hfny]
    exact hlt
  · intro r hr
    rw [show yearOf fn.date = ny from hfny]
    exact hgap _ ((mem_sortedYears df (yearOf r.date)).mpr ⟨r, hr, rfl⟩)

/-- Witness for the amended claim C2 at a concrete two-year series. -/
theorem C2_witness :
    (∃ r ∈ px_c2w, yearOf r.date = (2020 : Nat)) ∧
    (∃ r ∈ px_c2w, yearOf r.date = yearOf 20210104) ∧
    (2020 : Nat) < yearOf 20210104 ∧
    ∀ r ∈ px_c2w, yearOf r.date ≤ (2020 : Nat) ∨ yearOf (20210104 : Nat) ≤ yearOf r.date :=
  C2_year_pairing_amended px_c2w "X"
    ⟨"X", 2020, 20200102, 20210104, 100, 110, (110 - 100 : ℚ) / 100 * 100⟩ (by
      have h : calculate_annual_returns px_c2w "X" =
          [⟨"X", 2020, 20200102, 20210104, 100, 110, (110 - 100 : ℚ) / 100 * 100⟩] := rfl
      rw [h]
      exact List.mem_singleton_self _)

/-- Claim C7: if the first-trading-day close of a year Y is 0, no return
observation starting at year Y is emitted; and every emitted observation
has a nonzero start_price with annual_return_pct equal to the exact
rational (end − start) / start × 100 — so no NaN or infinity can appear in
the output (the value is always a well-defined rational). -/
theorem C7_division_guard (df : List PriceRow) (ticker : String) (y : Nat) (fc : PriceRow)
    (h0 : firstTradingRow df y = some fc) (hz : fc.close = 0) :
    (∀ obs ∈ calculate_annual_returns df ticker, obs.year ≠ y) ∧
    (∀ obs ∈ calculate_annual_returns df ticker,
      obs.start_price ≠ 0 ∧
      obs.annual_return_pct = (obs.end_price - obs.start_price) / obs.start_price * 100) := by
  constructor
  · intro obs h hy
    obtain ⟨cy, ny, fc', fn, _, h1, _, hnz, rfl⟩ :=
      calculate_annual_returns_inv df ticker obs h
    rw [show (⟨ticker, cy, fc'.date, fn.date, fc'.close, fn.close,
      (fn.close - fc'.close) / fc'.close * 100⟩ : RetObs).year = cy from rfl] at hy
    subst hy
    rw [h0] at h1
    simp only [Option.some.injEq] at h1
    exact hnz (h1 ▸ hz)
  · intro obs h
    obtain ⟨cy, ny, fc', fn, _, _, _, hnz, rfl⟩ :=
      calculate_annual_returns_inv df ticker obs h
    exact ⟨hnz, rfl⟩

/-- Witness for claim C7 at a concrete series whose 2020 first close is
zero: the conclusion's quantifiers range over the actually emitted
observations of that series. -/
theorem C7_witness :
    (∀ obs ∈ calculate_annual_returns px_c7w "X", obs.year ≠ (2020 : Nat)) ∧
    (∀ obs ∈ calculate_annual_returns px_c7w "X",
      obs.start_price ≠ 0 ∧
      obs.annual_return_pct = (obs.end_price - obs.start_price) / obs.start_price * 100) :=
  C7_division_guard px_c7w "X" 2020 ⟨20200102, 0⟩ (by decide) rfl

end Edgar
